import Mathlib

/-
Verification of the rendezvous matcher in Src/C_BaseLib/BLPgas.cpp
(`BLPgas::Send` and the pending-transfer multimap `pgas_send_info_map`).

The C++ core is shallowly embedded:
  * `upcxx::global_ptr<void>` becomes `GlobalPtr`: a rank (`where()`) together
    with a raw address that may be NULL (`Option Nat`).
  * `BLPgas::SendInfo` becomes `SendInfo` with the same seven fields.
  * the process-global `pgas_send_info_map` (a multimap from `upcxx::rank_t`
    to `SendInfo`) becomes an association list `List (Nat × SendInfo)`.
  * `int` counters reached through `int*` pointers become an association list
    from pointer value to counter contents.
  * calls to `async_copy_and_signal` are recorded in an event log instead of
    moving bytes.
  * a failed `assert` aborts the process; here the whole call returns
    `Except.error` with a tag naming the assertion that failed.
-/

set_option autoImplicit false

deriving instance DecidableEq for Except

namespace BLPgas

/-- `upcxx::global_ptr<void>`: a rank (the result of `where()`) plus a raw
local address; `addr = none` is the NULL pointer. -/
structure GlobalPtr where
  rank : Nat
  addr : Option Nat
deriving DecidableEq, Repr

/-- `BLPgas::SendInfo` (declared in BLPgas.H, used throughout BLPgas.cpp):
one pending transfer descriptor.  `signal_event`, `done_event` and
`send_counter` are pointers in the C++ code; they are modelled by their
pointer values, with `none` for NULL. -/
structure SendInfo where
  src_ptr : GlobalPtr
  dst_ptr : GlobalPtr
  nbytes : Nat
  SeqNum : Int
  signal_event : Option Nat
  done_event : Option Nat
  send_counter : Option Nat
deriving DecidableEq, Repr

/-- Modelled from the spec: `SendInfo::check()` is declared in BLPgas.H, which
is not among the provided sources.  Per the spec (§4.2 steps b–d), before the
copy is issued the matcher asserts that the matched descriptor's source and
destination addresses are both non-null. -/
def SendInfo.check (si : SendInfo) : Bool :=
  si.src_ptr.addr.isSome && si.dst_ptr.addr.isSome

/-- One recorded invocation of `async_copy_and_signal(src, dst, nbytes,
signal_event, done_event)` (BLPgas.cpp lines 108–112). -/
structure CopyCall where
  src : GlobalPtr
  dst : GlobalPtr
  nbytes : Nat
  signal_event : Option Nat
  done_event : Option Nat
deriving DecidableEq, Repr

/-- The mutable state touched by `BLPgas::Send`: the pending-transfer multimap
`pgas_send_info_map` (keyed by destination rank), the integer cells reachable
through `send_counter` pointers, and the log of issued copies. -/
structure PgasState where
  table : List (Nat × SendInfo)
  counters : List (Nat × Nat)
  copies : List CopyCall
deriving DecidableEq, Repr

/-- Which `assert` in the match path failed.  In the C++ code each of these
aborts the process before `async_copy_and_signal` is reached. -/
inductive PgasError where
  /-- `assert(nbytes == send_info.nbytes)` (BLPgas.cpp line 79) failed. -/
  | sizeMismatch
  /-- `assert(send_info.dst_ptr == NULL)` (BLPgas.cpp line 97) failed. -/
  | dstAlreadySet
  /-- `send_info.check()` (BLPgas.cpp line 106) failed. -/
  | checkFailed
deriving DecidableEq, Repr

/-- The loop condition of BLPgas.cpp lines 69–76: an entry is a match when it
sits in `equal_range(dst.where())` (key equality) and `SeqNum ==
send_info.SeqNum`. -/
def matchesEntry (dstRank : Nat) (SeqNum : Int) (e : Nat × SendInfo) : Bool :=
  e.1 == dstRank && SeqNum == e.2.SeqNum

/-- BLPgas.cpp lines 86–104: fill in the half of the matched descriptor that
the current call supplies.  If `src_ptr` is NULL the call supplies the source
half (src, done_event, send_counter); otherwise the code asserts `dst_ptr` is
NULL and the call supplies the destination half (dst, signal_event). -/
def completeInfo (src dst : GlobalPtr) (signal_event done_event send_counter : Option Nat)
    (si : SendInfo) : Except PgasError SendInfo :=
  if si.src_ptr.addr = none then
    Except.ok { si with src_ptr := src, done_event := done_event, send_counter := send_counter }
  else if si.dst_ptr.addr = none then
    Except.ok { si with dst_ptr := dst, signal_event := signal_event }
  else
    Except.error PgasError.dstAlreadySet

/-- Outcome of the matching loop of BLPgas.cpp lines 72–119. -/
inductive ScanResult where
  /-- the loop fell through: no entry with this key and SeqNum. -/
  | noMatch
  /-- a match fired: `si` is the completed descriptor, and the second
  component is the table after `pgas_send_info_map.erase(it)`. -/
  | fired (si : SendInfo) (rest : List (Nat × SendInfo))
  /-- an `assert` on the match path failed. -/
  | fatal (e : PgasError)
deriving DecidableEq, Repr

/-- The matching loop of BLPgas.cpp lines 72–119, walking the multimap in
iteration order.  (The C++ loop only visits `equal_range(dst.where())`; here
the key equality is folded into `matchesEntry`, which visits the same set of
entries.)  On the first entry with matching key and SeqNum it checks the size,
fills the missing half, runs `check()`, and — all asserts passing — reports
the completed descriptor together with the table with that entry erased. -/
def scanSend (src dst : GlobalPtr) (nbytes : Nat) (SeqNum : Int)
    (signal_event done_event send_counter : Option Nat) :
    List (Nat × SendInfo) → ScanResult
  | [] => ScanResult.noMatch
  | e :: rest =>
    if matchesEntry dst.rank SeqNum e then
      if nbytes ≠ e.2.nbytes then
        ScanResult.fatal PgasError.sizeMismatch
      else
        match completeInfo src dst signal_event done_event send_counter e.2 with
        | Except.error err => ScanResult.fatal err
        | Except.ok si =>
          if si.check then ScanResult.fired si rest
          else ScanResult.fatal PgasError.checkFailed
    else
      match scanSend src dst nbytes SeqNum signal_event done_event send_counter rest with
      | ScanResult.noMatch => ScanResult.noMatch
      | ScanResult.fired si t => ScanResult.fired si (e :: t)
      | ScanResult.fatal err => ScanResult.fatal err

/-- Read the integer cell a `send_counter` pointer refers to (0 for a cell
never written). -/
def getCounter : List (Nat × Nat) → Nat → Nat
  | [], _ => 0
  | p :: rest, c => if p.1 = c then p.2 else getCounter rest c

/-- Write the integer cell a `send_counter` pointer refers to. -/
def setCounter : List (Nat × Nat) → Nat → Nat → List (Nat × Nat)
  | [], c, v => [(c, v)]
  | p :: rest, c, v => if p.1 = c then (c, v) :: rest else p :: setCounter rest c v

/-- `(*send_info.send_counter)++` (BLPgas.cpp line 114).  A NULL
`send_counter` would be undefined behaviour in the C++ code; it is modelled
as a no-op and never exercised by the theorems below, which always supply a
counter with the source half. -/
def bumpCounter (cs : List (Nat × Nat)) : Option Nat → List (Nat × Nat)
  | none => cs
  | some c => setCounter cs c (getCounter cs c + 1)

/-- `BLPgas::Send` (BLPgas.cpp lines 50–125).  Scan the multimap under key
`dst.where()` for an entry with this `SeqNum`; on a match, complete the
descriptor, issue the one-sided copy, increment the send counter and erase
the entry; otherwise insert a new descriptor holding exactly the fields of
this call, keyed by `dst.where()`. -/
def send (st : PgasState) (src dst : GlobalPtr) (nbytes : Nat) (SeqNum : Int)
    (signal_event done_event send_counter : Option Nat) : Except PgasError PgasState :=
  match scanSend src dst nbytes SeqNum signal_event done_event send_counter st.table with
  | ScanResult.fatal err => Except.error err
  | ScanResult.fired si rest =>
    Except.ok { table := rest,
                counters := bumpCounter st.counters si.send_counter,
                copies := st.copies ++
                  [{ src := si.src_ptr, dst := si.dst_ptr, nbytes := si.nbytes,
                     signal_event := si.signal_event, done_event := si.done_event }] }
  | ScanResult.noMatch =>
    Except.ok { st with table := st.table ++
      [(dst.rank, { src_ptr := src, dst_ptr := dst, nbytes := nbytes, SeqNum := SeqNum,
                    signal_event := signal_event, done_event := done_event,
                    send_counter := send_counter })] }

/-- Observable actions of one `BLPgas::Send` call, in execution order. -/
inductive Event where
  /-- `async_copy_and_signal(...)` was invoked (BLPgas.cpp lines 108–112). -/
  | copyIssued (c : CopyCall)
  /-- `(*send_info.send_counter)++` ran (line 114). -/
  | counterBumped (send_counter : Option Nat)
  /-- `pgas_send_info_map.erase(it)` ran (line 116). -/
  | erased (key : Nat) (SeqNum : Int)
  /-- `pgas_send_info_map.insert(...)` ran (line 124). -/
  | inserted (key : Nat) (SeqNum : Int)
deriving DecidableEq, Repr

/-- The trace of one `BLPgas::Send` call: the statements of the match branch
execute in source order copy (lines 108–112), counter increment (line 114),
erase (line 116); the no-match branch only inserts (line 124).  A failed
assert aborts before any of these. -/
def sendTrace (st : PgasState) (src dst : GlobalPtr) (nbytes : Nat) (SeqNum : Int)
    (signal_event done_event send_counter : Option Nat) : Except PgasError (List Event) :=
  match scanSend src dst nbytes SeqNum signal_event done_event send_counter st.table with
  | ScanResult.fatal err => Except.error err
  | ScanResult.fired si _ =>
    Except.ok [Event.copyIssued { src := si.src_ptr, dst := si.dst_ptr, nbytes := si.nbytes,
                                  signal_event := si.signal_event, done_event := si.done_event },
               Event.counterBumped si.send_counter,
               Event.erased dst.rank SeqNum]
  | ScanResult.noMatch => Except.ok [Event.inserted dst.rank SeqNum]

/-- Is some entry with this key and SeqNum present in the table? -/
def hasKey (t : List (Nat × SendInfo)) (key : Nat) (seq : Int) : Bool :=
  t.any (matchesEntry key seq)

/-- Number of entries with this key and SeqNum in the table. -/
def countKey (t : List (Nat × SendInfo)) (key : Nat) (seq : Int) : Nat :=
  t.countP (matchesEntry key seq)

/-- Invariant I3: at most one descriptor per (destination rank, SeqNum). -/
def UniqTable (t : List (Nat × SendInfo)) : Prop :=
  ∀ key seq, countKey t key seq ≤ 1

/-- The arguments of one `BLPgas::Send` call. -/
structure SendArgs where
  src : GlobalPtr
  dst : GlobalPtr
  nbytes : Nat
  SeqNum : Int
  signal_event : Option Nat
  done_event : Option Nat
  send_counter : Option Nat
deriving DecidableEq, Repr

/-- `BLPgas::Send` applied to packaged arguments. -/
def sendArgs (st : PgasState) (a : SendArgs) : Except PgasError PgasState :=
  send st a.src a.dst a.nbytes a.SeqNum a.signal_event a.done_event a.send_counter

/-- Run a sequence of `BLPgas::Send` calls, stopping at the first failed
assert (which in the C++ code aborts the process). -/
def runCalls : PgasState → List SendArgs → Except PgasError PgasState
  | st, [] => Except.ok st
  | st, a :: rest =>
    match sendArgs st a with
    | Except.error e => Except.error e
    | Except.ok st' => runCalls st' rest

/-- Does the event report a copy invocation? -/
def isCopy : Event → Bool
  | Event.copyIssued _ => true
  | _ => false

/-- Does the event report a table erase? -/
def isErase : Event → Bool
  | Event.erased _ _ => true
  | _ => false

/-- The first table erase in the trace occurs strictly before the first copy
invocation: walking the trace in execution order, an erase is reached while a
copy still lies ahead. -/
def erasePrecedesCopy : List Event → Bool
  | [] => false
  | e :: rest =>
    if isErase e then rest.any isCopy
    else if isCopy e then false
    else erasePrecedesCopy rest

/-- The first copy invocation in the trace occurs strictly before the first
table erase. -/
def copyPrecedesErase : List Event → Bool
  | [] => false
  | e :: rest =>
    if isCopy e then rest.any isErase
    else if isErase e then false
    else copyPrecedesErase rest

/-- A receive-side announcement for tag `seq` to destination rank `peer`:
it carries the destination buffer address `D` and the receiver's signal
event; the source pointer is NULL and no done event or counter is supplied. -/
def recvHalf (peer rx D n : Nat) (seq : Int) (sig : Nat) : SendArgs :=
  { src := { rank := rx, addr := none }, dst := { rank := peer, addr := some D },
    nbytes := n, SeqNum := seq, signal_event := some sig, done_event := none,
    send_counter := none }

/-- A send-side announcement for tag `seq` to destination rank `peer`: it
carries the source buffer address `S`, the sender's done event and the send
counter; the destination pointer names the peer rank with NULL address. -/
def sendHalf (peer rs S n : Nat) (seq : Int) (done c : Nat) : SendArgs :=
  { src := { rank := rs, addr := some S }, dst := { rank := peer, addr := none },
    nbytes := n, SeqNum := seq, signal_event := none, done_event := some done,
    send_counter := some c }

/-- The copy a matched source/destination pair fires: source buffer to
destination buffer, with the receiver's signal event and the sender's done
event. -/
def fireCopy (rs S peer D n sig done : Nat) : CopyCall :=
  { src := { rank := rs, addr := some S }, dst := { rank := peer, addr := some D },
    nbytes := n, signal_event := some sig, done_event := some done }

/-- The half-known descriptor a receive-side announcement registers
(BLPgas.cpp line 123 with the receive call's arguments). -/
def recvInfo (peer rx D n : Nat) (seq : Int) (sig : Nat) : SendInfo :=
  { src_ptr := { rank := rx, addr := none }, dst_ptr := { rank := peer, addr := some D },
    nbytes := n, SeqNum := seq, signal_event := some sig, done_event := none,
    send_counter := none }

/-- The half-known descriptor a send-side announcement registers
(BLPgas.cpp line 123 with the send call's arguments). -/
def sendInfo (peer rs S n : Nat) (seq : Int) (done c : Nat) : SendInfo :=
  { src_ptr := { rank := rs, addr := some S }, dst_ptr := { rank := peer, addr := none },
    nbytes := n, SeqNum := seq, signal_event := none, done_event := some done,
    send_counter := some c }

/-- Unfolding of the match condition into its two equalities. -/
theorem matchesEntry_iff_parts (key : Nat) (seq : Int) (e : Nat × SendInfo) :
    matchesEntry key seq e = true ↔ e.1 = key ∧ seq = e.2.SeqNum := by
  simp [matchesEntry]

/-- `hasKey` distributes over table concatenation. -/
theorem hasKey_append (t l : List (Nat × SendInfo)) (key : Nat) (seq : Int) :
    hasKey (t ++ l) key seq = (hasKey t key seq || hasKey l key seq) := by
  simp [hasKey]

/-- `countKey` distributes over table concatenation. -/
theorem countKey_append (t l : List (Nat × SendInfo)) (key : Nat) (seq : Int) :
    countKey (t ++ l) key seq = countKey t key seq + countKey l key seq := by
  simp [countKey, List.countP_append]

/-- An absent key has count zero. -/
theorem countKey_eq_zero_of_hasKey_false {t : List (Nat × SendInfo)} {key : Nat} {seq : Int}
    (h : hasKey t key seq = false) : countKey t key seq = 0 := by
  rw [countKey, List.countP_eq_zero]
  exact List.any_eq_false.mp h

/-- Reading back the counter cell just written. -/
theorem getCounter_setCounter_self (cs : List (Nat × Nat)) (c v : Nat) :
    getCounter (setCounter cs c v) c = v := by
  induction cs with
  | nil => simp [getCounter, setCounter]
  | cons p rest ih =>
    by_cases h : p.1 = c <;> simp [getCounter, setCounter, h, ih]

/-- Writing one counter cell leaves every other cell unchanged. -/
theorem getCounter_setCounter_ne (cs : List (Nat × Nat)) {c c' : Nat} (v : Nat)
    (h : c' ≠ c) : getCounter (setCounter cs c v) c' = getCounter cs c' := by
  have h' : ¬(c = c') := fun hc => h hc.symm
  induction cs with
  | nil => simp [getCounter, setCounter, h']
  | cons p rest ih =>
    by_cases hp : p.1 = c
    · simp [setCounter, hp, getCounter, h']
    · simp [setCounter, hp, getCounter, ih]

/-- `(*send_counter)++` adds one to the cell the pointer refers to. -/
theorem getCounter_bumpCounter_self (cs : List (Nat × Nat)) (c : Nat) :
    getCounter (bumpCounter cs (some c)) c = getCounter cs c + 1 := by
  simp [bumpCounter, getCounter_setCounter_self]

/-- `(*send_counter)++` leaves every other counter cell unchanged. -/
theorem getCounter_bumpCounter_ne (cs : List (Nat × Nat)) {c c' : Nat} (h : c' ≠ c) :
    getCounter (bumpCounter cs (some c)) c' = getCounter cs c' := by
  simp [bumpCounter, getCounter_setCounter_ne _ _ h]

/-- The matching loop on a table whose head entry matches. -/
theorem scanSend_cons_of_match {src dst : GlobalPtr} {nbytes : Nat} {SeqNum : Int}
    {sig done ctr : Option Nat} {e : Nat × SendInfo} (rest : List (Nat × SendInfo))
    (hm : matchesEntry dst.rank SeqNum e = true) :
    scanSend src dst nbytes SeqNum sig done ctr (e :: rest) =
      if nbytes ≠ e.2.nbytes then ScanResult.fatal PgasError.sizeMismatch
      else
        match completeInfo src dst sig done ctr e.2 with
        | Except.error err => ScanResult.fatal err
        | Except.ok si =>
          if si.check then ScanResult.fired si rest
          else ScanResult.fatal PgasError.checkFailed := by
  simp [scanSend, hm]

/-- The matching loop skips a non-matching head entry, re-attaching it to the
table returned by the tail scan. -/
theorem scanSend_cons_of_not_match {src dst : GlobalPtr} {nbytes : Nat} {SeqNum : Int}
    {sig done ctr : Option Nat} {e : Nat × SendInfo} (rest : List (Nat × SendInfo))
    (hm : matchesEntry dst.rank SeqNum e = false) :
    scanSend src dst nbytes SeqNum sig done ctr (e :: rest) =
      match scanSend src dst nbytes SeqNum sig done ctr rest with
      | ScanResult.noMatch => ScanResult.noMatch
      | ScanResult.fired si t => ScanResult.fired si (e :: t)
      | ScanResult.fatal err => ScanResult.fatal err := by
  simp [scanSend, hm]

/-- A table without the key scans to `noMatch`. -/
theorem scanSend_of_hasKey_false {src dst : GlobalPtr} {nbytes : Nat} {SeqNum : Int}
    {sig done ctr : Option Nat} {t : List (Nat × SendInfo)}
    (h : hasKey t dst.rank SeqNum = false) :
    scanSend src dst nbytes SeqNum sig done ctr t = ScanResult.noMatch := by
  induction t with
  | nil => rfl
  | cons e rest ih =>
    rw [hasKey, List.any_cons, Bool.or_eq_false_iff] at h
    rw [scanSend_cons_of_not_match rest h.1, ih h.2]

/-- Conversely, a `noMatch` scan means the key is absent. -/
theorem hasKey_false_of_scanSend_noMatch {src dst : GlobalPtr} {nbytes : Nat} {SeqNum : Int}
    {sig done ctr : Option Nat} {t : List (Nat × SendInfo)}
    (h : scanSend src dst nbytes SeqNum sig done ctr t = ScanResult.noMatch) :
    hasKey t dst.rank SeqNum = false := by
  induction t with
  | nil => rfl
  | cons e rest ih =>
    by_cases hm : matchesEntry dst.rank SeqNum e
    · rw [scanSend_cons_of_match rest hm] at h
      split at h
      · cases h
      · split at h
        · cases h
        · split at h <;> cases h
    · rw [Bool.not_eq_true] at hm
      rw [scanSend_cons_of_not_match rest hm] at h
      rw [hasKey, List.any_cons, hm, Bool.false_or]
      cases hscan : scanSend src dst nbytes SeqNum sig done ctr rest <;> rw [hscan] at h
      · exact ih hscan
      · cases h
      · cases h

/-- Scanning past a key-free table segment: the segment is skipped and
re-attached in front of whatever table the tail scan returns. -/
theorem scanSend_append_of_hasKey_false {src dst : GlobalPtr} {nbytes : Nat} {SeqNum : Int}
    {sig done ctr : Option Nat} {t : List (Nat × SendInfo)} (l : List (Nat × SendInfo))
    (h : hasKey t dst.rank SeqNum = false) :
    scanSend src dst nbytes SeqNum sig done ctr (t ++ l) =
      match scanSend src dst nbytes SeqNum sig done ctr l with
      | ScanResult.noMatch => ScanResult.noMatch
      | ScanResult.fired si t' => ScanResult.fired si (t ++ t')
      | ScanResult.fatal err => ScanResult.fatal err := by
  induction t with
  | nil =>
    simp only [List.nil_append]
    cases scanSend src dst nbytes SeqNum sig done ctr l <;> rfl
  | cons e rest ih =>
    rw [hasKey, List.any_cons, Bool.or_eq_false_iff] at h
    rw [List.cons_append, scanSend_cons_of_not_match (rest ++ l) h.1, ih h.2]
    cases scanSend src dst nbytes SeqNum sig done ctr l <;> rfl

/-- A fired scan decomposes the table as a key-free segment, the matched
entry (which passed the size check, was completed and passed `check()`), and
the remainder; the returned table is the original one with exactly that entry
erased. -/
theorem scanSend_fired_split {src dst : GlobalPtr} {nbytes : Nat} {SeqNum : Int}
    {sig done ctr : Option Nat} {t rest : List (Nat × SendInfo)} {si : SendInfo}
    (h : scanSend src dst nbytes SeqNum sig done ctr t = ScanResult.fired si rest) :
    ∃ pre e post, t = pre ++ e :: post ∧ rest = pre ++ post ∧
      matchesEntry dst.rank SeqNum e = true ∧
      nbytes = e.2.nbytes ∧
      completeInfo src dst sig done ctr e.2 = Except.ok si ∧
      si.check = true := by
  induction t generalizing rest with
  | nil => cases h
  | cons e l ih =>
    by_cases hm : matchesEntry dst.rank SeqNum e
    · rw [scanSend_cons_of_match l hm] at h
      by_cases hn : nbytes ≠ e.2.nbytes
      · rw [if_pos hn] at h; cases h
      · rw [if_neg hn] at h
        cases hc : completeInfo src dst sig done ctr e.2 with
        | error err => rw [hc] at h; cases h
        | ok si0 =>
          rw [hc] at h
          dsimp only at h
          by_cases hck : si0.check
          · rw [if_pos hck] at h
            injection h with h1 h2
            subst h1; subst h2
            exact ⟨[], e, l, rfl, rfl, hm, Classical.not_not.mp hn, hc, hck⟩
          · rw [if_neg hck] at h; cases h
    · rw [Bool.not_eq_true] at hm
      rw [scanSend_cons_of_not_match l hm] at h
      cases hscan : scanSend src dst nbytes SeqNum sig done ctr l <;> rw [hscan] at h
      · cases h
      · injection h with h1 h2
        subst h1; subst h2
        obtain ⟨pre, e', post, ht, hrest, hm', hn', hc', hck'⟩ := ih hscan
        exact ⟨e :: pre, e', post, by rw [ht]; rfl, by rw [hrest]; rfl, hm', hn', hc', hck'⟩
      · cases h

/-- Erasing the matched entry can only lower the count of any key. -/
theorem countKey_le_of_scanSend_fired {src dst : GlobalPtr} {nbytes : Nat} {SeqNum : Int}
    {sig done ctr : Option Nat} {t rest : List (Nat × SendInfo)} {si : SendInfo}
    (h : scanSend src dst nbytes SeqNum sig done ctr t = ScanResult.fired si rest)
    (key : Nat) (s : Int) :
    countKey rest key s ≤ countKey t key s := by
  obtain ⟨pre, e, post, ht, hrest, -, -, -, -⟩ := scanSend_fired_split h
  subst ht; subst hrest
  simp only [countKey, List.countP_append, List.countP_cons]
  by_cases hb : matchesEntry key s e
  · simp only [hb, if_pos]
    omega
  · simp only [Bool.not_eq_true] at hb
    simp only [hb, Bool.false_eq_true, if_false]
    omega

/-- Erasing the matched entry does not change the count of any other
(destination rank, SeqNum) key. -/
theorem countKey_eq_of_scanSend_fired_ne {src dst : GlobalPtr} {nbytes : Nat} {SeqNum : Int}
    {sig done ctr : Option Nat} {t rest : List (Nat × SendInfo)} {si : SendInfo}
    (h : scanSend src dst nbytes SeqNum sig done ctr t = ScanResult.fired si rest)
    {key : Nat} {s : Int} (hdisj : key ≠ dst.rank ∨ s ≠ SeqNum) :
    countKey rest key s = countKey t key s := by
  obtain ⟨pre, e, post, ht, hrest, hm, -, -, -⟩ := scanSend_fired_split h
  subst ht; subst hrest
  obtain ⟨he1, he2⟩ := (matchesEntry_iff_parts dst.rank SeqNum e).mp hm
  have hb : matchesEntry key s e = false := by
    rw [Bool.eq_false_iff]
    intro hb
    obtain ⟨hb1, hb2⟩ := (matchesEntry_iff_parts key s e).mp hb
    rcases hdisj with hk | hs
    · exact hk (hb1 ▸ he1)
    · exact hs (by rw [hb2, ← he2])
  simp [countKey, List.countP_append, List.countP_cons, hb]

/-- No match found (BLPgas.cpp lines 121–124): `BLPgas::Send` inserts a new
descriptor made of exactly the supplied fields under key `dst.where()` and
changes nothing else: counters and the copy log are untouched, existing
entries are preserved in place. -/
theorem send_insert {st : PgasState} {src dst : GlobalPtr} {nbytes : Nat} {SeqNum : Int}
    {sig done ctr : Option Nat}
    (h : hasKey st.table dst.rank SeqNum = false) :
    send st src dst nbytes SeqNum sig done ctr =
      Except.ok { st with table := st.table ++
        [(dst.rank, { src_ptr := src, dst_ptr := dst, nbytes := nbytes, SeqNum := SeqNum,
                      signal_event := sig, done_event := done, send_counter := ctr })] } := by
  unfold send
  rw [scanSend_of_hasKey_false h]

/-- The trace of a no-match call is a single insertion. -/
theorem sendTrace_insert {st : PgasState} {src dst : GlobalPtr} {nbytes : Nat} {SeqNum : Int}
    {sig done ctr : Option Nat}
    (h : hasKey st.table dst.rank SeqNum = false) :
    sendTrace st src dst nbytes SeqNum sig done ctr =
      Except.ok [Event.inserted dst.rank SeqNum] := by
  unfold sendTrace
  rw [scanSend_of_hasKey_false h]

/-- Match found: when the table splits as a key-free segment, the matching
entry `(dst.rank, si)` and a remainder, `BLPgas::Send` reduces to the match
path of lines 76–117: size assertion, completion of the missing half,
`check()`, then — all asserts passing — the copy, the counter increment and
the erase of exactly that entry. -/
theorem send_split {st : PgasState} {src dst : GlobalPtr} {nbytes : Nat} {SeqNum : Int}
    {sig done ctr : Option Nat} (pre post : List (Nat × SendInfo)) (si : SendInfo)
    (hsplit : st.table = pre ++ (dst.rank, si) :: post)
    (hpre : hasKey pre dst.rank SeqNum = false)
    (hseq : si.SeqNum = SeqNum) :
    send st src dst nbytes SeqNum sig done ctr =
      if nbytes ≠ si.nbytes then Except.error PgasError.sizeMismatch
      else
        match completeInfo src dst sig done ctr si with
        | Except.error err => Except.error err
        | Except.ok si' =>
          if si'.check then
            Except.ok { table := pre ++ post,
                        counters := bumpCounter st.counters si'.send_counter,
                        copies := st.copies ++
                          [{ src := si'.src_ptr, dst := si'.dst_ptr, nbytes := si'.nbytes,
                             signal_event := si'.signal_event, done_event := si'.done_event }] }
          else Except.error PgasError.checkFailed := by
  have hm : matchesEntry dst.rank SeqNum (dst.rank, si) = true := by
    simp [matchesEntry, hseq]
  unfold send
  rw [hsplit, scanSend_append_of_hasKey_false _ hpre, scanSend_cons_of_match post hm]
  by_cases hn : nbytes ≠ si.nbytes
  · rw [if_pos hn, if_pos hn]
  · rw [if_neg hn, if_neg hn]
    cases hc : completeInfo src dst sig done ctr si with
    | error err => rfl
    | ok si' =>
      dsimp only
      by_cases hck : si'.check
      · rw [if_pos hck, if_pos hck]
      · rw [if_neg hck, if_neg hck]

/-- Match found: the trace of the match path is copy, counter increment,
erase — in that order — when all asserts pass, and the failing assert alone
otherwise. -/
theorem sendTrace_split {st : PgasState} {src dst : GlobalPtr} {nbytes : Nat} {SeqNum : Int}
    {sig done ctr : Option Nat} (pre post : List (Nat × SendInfo)) (si : SendInfo)
    (hsplit : st.table = pre ++ (dst.rank, si) :: post)
    (hpre : hasKey pre dst.rank SeqNum = false)
    (hseq : si.SeqNum = SeqNum) :
    sendTrace st src dst nbytes SeqNum sig done ctr =
      if nbytes ≠ si.nbytes then Except.error PgasError.sizeMismatch
      else
        match completeInfo src dst sig done ctr si with
        | Except.error err => Except.error err
        | Except.ok si' =>
          if si'.check then
            Except.ok [Event.copyIssued { src := si'.src_ptr, dst := si'.dst_ptr,
                                          nbytes := si'.nbytes, signal_event := si'.signal_event,
                                          done_event := si'.done_event },
                       Event.counterBumped si'.send_counter,
                       Event.erased dst.rank SeqNum]
          else Except.error PgasError.checkFailed := by
  have hm : matchesEntry dst.rank SeqNum (dst.rank, si) = true := by
    simp [matchesEntry, hseq]
  unfold sendTrace
  rw [hsplit, scanSend_append_of_hasKey_false _ hpre, scanSend_cons_of_match post hm]
  by_cases hn : nbytes ≠ si.nbytes
  · rw [if_pos hn, if_pos hn]
  · rw [if_neg hn, if_neg hn]
    cases hc : completeInfo src dst sig done ctr si with
    | error err => rfl
    | ok si' =>
      dsimp only
      by_cases hck : si'.check
      · rw [if_pos hck, if_pos hck]
      · rw [if_neg hck, if_neg hck]

/-- A successful `BLPgas::Send` call preserves invariant I3: it never creates
a second entry for a (destination rank, SeqNum) key that is already present,
because the scan either finds the existing entry (and erases it) or inserts
under a key it proved absent. -/
theorem UniqTable_send {st st' : PgasState} {src dst : GlobalPtr} {nbytes : Nat} {SeqNum : Int}
    {sig done ctr : Option Nat}
    (hU : UniqTable st.table)
    (h : send st src dst nbytes SeqNum sig done ctr = Except.ok st') :
    UniqTable st'.table := by
  unfold send at h
  cases hscan : scanSend src dst nbytes SeqNum sig done ctr st.table <;> rw [hscan] at h
  case noMatch =>
    injection h with h
    subst h
    intro key s
    have h0 : countKey st.table dst.rank SeqNum = 0 :=
      countKey_eq_zero_of_hasKey_false (hasKey_false_of_scanSend_noMatch hscan)
    rw [countKey_append]
    by_cases hb : matchesEntry key s (dst.rank,
        { src_ptr := src, dst_ptr := dst, nbytes := nbytes, SeqNum := SeqNum,
          signal_event := sig, done_event := done, send_counter := ctr })
    · obtain ⟨hb1, hb2⟩ := (matchesEntry_iff_parts key s _).mp hb
      dsimp at hb1 hb2
      subst hb1; subst hb2
      rw [h0]
      simp [countKey, List.countP_cons, hb]
    · rw [Bool.not_eq_true] at hb
      have hz : countKey [(dst.rank,
          { src_ptr := src, dst_ptr := dst, nbytes := nbytes, SeqNum := SeqNum,
            signal_event := sig, done_event := done, send_counter := ctr })] key s = 0 := by
        simp [countKey, List.countP_cons, hb]
      rw [hz]
      have hle := hU key s
      omega
  case fired si rest =>
    injection h with h
    subst h
    intro key s
    exact Nat.le_trans (countKey_le_of_scanSend_fired hscan key s) (hU key s)
  case fatal err => cases h

/-- A successful `BLPgas::Send` call for key (dst.rank, SeqNum) leaves the
entry count of every other (rank, tag) key unchanged: matching never crosses
tags or destination ranks, and insertion only adds under the call's own
key. -/
theorem countKey_send_ok {st st' : PgasState} {src dst : GlobalPtr} {nbytes : Nat} {SeqNum : Int}
    {sig done ctr : Option Nat}
    (h : send st src dst nbytes SeqNum sig done ctr = Except.ok st')
    {key : Nat} {s : Int} (hdisj : key ≠ dst.rank ∨ s ≠ SeqNum) :
    countKey st'.table key s = countKey st.table key s := by
  unfold send at h
  cases hscan : scanSend src dst nbytes SeqNum sig done ctr st.table <;> rw [hscan] at h
  case noMatch =>
    injection h with h
    subst h
    have hb : matchesEntry key s (dst.rank,
        { src_ptr := src, dst_ptr := dst, nbytes := nbytes, SeqNum := SeqNum,
          signal_event := sig, done_event := done, send_counter := ctr }) = false := by
      rw [Bool.eq_false_iff]
      intro hb
      obtain ⟨hb1, hb2⟩ := (matchesEntry_iff_parts key s _).mp hb
      dsimp at hb1 hb2
      rcases hdisj with hk | hs
      · exact hk hb1.symm
      · exact hs hb2
    rw [countKey_append]
    simp [countKey, List.countP_cons, hb]
  case fired si rest =>
    injection h with h
    subst h
    exact countKey_eq_of_scanSend_fired_ne hscan hdisj
  case fatal err => cases h

/-- Running no calls leaves the state unchanged. -/
theorem runCalls_nil (st : PgasState) : runCalls st [] = Except.ok st := rfl

/-- Running one more call: the head call executes first, the tail continues
from its resulting state unless an assert failed. -/
theorem runCalls_cons (st : PgasState) (a : SendArgs) (rest : List SendArgs) :
    runCalls st (a :: rest) =
      match sendArgs st a with
      | Except.error e => Except.error e
      | Except.ok st' => runCalls st' rest := rfl

/-- A receive-side announcement that finds no match inserts its half-known
descriptor under the peer's rank. -/
theorem sendArgs_recvHalf_insert {st : PgasState} {peer rx D n sig : Nat} {seq : Int}
    (h : hasKey st.table peer seq = false) :
    sendArgs st (recvHalf peer rx D n seq sig) =
      Except.ok (PgasState.mk (st.table ++ [(peer, recvInfo peer rx D n seq sig)])
        st.counters st.copies) := by
  unfold sendArgs recvHalf recvInfo
  dsimp only
  exact send_insert h

/-- A send-side announcement that finds no match inserts its half-known
descriptor under the peer's rank. -/
theorem sendArgs_sendHalf_insert {st : PgasState} {peer rs S n done c : Nat} {seq : Int}
    (h : hasKey st.table peer seq = false) :
    sendArgs st (sendHalf peer rs S n seq done c) =
      Except.ok (PgasState.mk (st.table ++ [(peer, sendInfo peer rs S n seq done c)])
        st.counters st.copies) := by
  unfold sendArgs sendHalf sendInfo
  dsimp only
  exact send_insert h

/-- A send-side announcement that matches a registered receive half fires the
copy, increments the counter and erases the entry. -/
theorem sendArgs_sendHalf_fires {st : PgasState} {peer rs S n done c rx D sig : Nat} {seq : Int}
    (pre post : List (Nat × SendInfo))
    (hsplit : st.table = pre ++ (peer, recvInfo peer rx D n seq sig) :: post)
    (hpre : hasKey pre peer seq = false) :
    sendArgs st (sendHalf peer rs S n seq done c) =
      Except.ok (PgasState.mk (pre ++ post) (bumpCounter st.counters (some c))
        (st.copies ++ [fireCopy rs S peer D n sig done])) := by
  unfold sendArgs sendHalf
  dsimp only
  rw [send_split pre post (recvInfo peer rx D n seq sig) hsplit hpre
    (show (recvInfo peer rx D n seq sig).SeqNum = seq from rfl)]
  simp [completeInfo, recvInfo, SendInfo.check, fireCopy]

/-- A receive-side announcement that matches a registered send half fires the
copy, increments the counter and erases the entry. -/
theorem sendArgs_recvHalf_fires {st : PgasState} {peer rx D n sig rs S done c : Nat} {seq : Int}
    (pre post : List (Nat × SendInfo))
    (hsplit : st.table = pre ++ (peer, sendInfo peer rs S n seq done c) :: post)
    (hpre : hasKey pre peer seq = false) :
    sendArgs st (recvHalf peer rx D n seq sig) =
      Except.ok (PgasState.mk (pre ++ post) (bumpCounter st.counters (some c))
        (st.copies ++ [fireCopy rs S peer D n sig done])) := by
  unfold sendArgs recvHalf
  dsimp only
  rw [send_split pre post (sendInfo peer rs S n seq done c) hsplit hpre
    (show (sendInfo peer rs S n seq done c).SeqNum = seq from rfl)]
  simp [completeInfo, sendInfo, SendInfo.check, fireCopy]

/-- Receive half then send half: announcing the destination buffer first
registers it, and the later source announcement fires the copy of the agreed
size from the source buffer to the destination buffer, carrying the
receiver's signal event and the sender's done event, increments the sender's
counter and erases the entry. -/
theorem runCalls_recv_send {st : PgasState} {peer rs rx S D n sig done c : Nat} {seq : Int}
    (h : hasKey st.table peer seq = false) :
    runCalls st [recvHalf peer rx D n seq sig, sendHalf peer rs S n seq done c] =
      Except.ok { table := st.table,
                  counters := bumpCounter st.counters (some c),
                  copies := st.copies ++ [fireCopy rs S peer D n sig done] } := by
  have e1 : sendArgs st (recvHalf peer rx D n seq sig) =
      Except.ok (PgasState.mk
        (st.table ++ [(peer, SendInfo.mk ⟨rx, none⟩ ⟨peer, some D⟩ n seq (some sig) none none)])
        st.counters st.copies) := by
    unfold sendArgs recvHalf
    dsimp only
    exact send_insert h
  rw [runCalls_cons, e1]
  dsimp only
  rw [runCalls_cons]
  have e2 : sendArgs (PgasState.mk
        (st.table ++ [(peer, SendInfo.mk ⟨rx, none⟩ ⟨peer, some D⟩ n seq (some sig) none none)])
        st.counters st.copies) (sendHalf peer rs S n seq done c) =
      Except.ok { table := st.table,
                  counters := bumpCounter st.counters (some c),
                  copies := st.copies ++ [fireCopy rs S peer D n sig done] } := by
    unfold sendArgs sendHalf
    dsimp only
    rw [send_split st.table []
      (SendInfo.mk ⟨rx, none⟩ ⟨peer, some D⟩ n seq (some sig) none none) rfl h rfl]
    simp [completeInfo, SendInfo.check, fireCopy]
  rw [e2]
  rfl

/-- Send half then receive half: the mirror order fires the identical copy
with the identical events and counter. -/
theorem runCalls_send_recv {st : PgasState} {peer rs rx S D n sig done c : Nat} {seq : Int}
    (h : hasKey st.table peer seq = false) :
    runCalls st [sendHalf peer rs S n seq done c, recvHalf peer rx D n seq sig] =
      Except.ok { table := st.table,
                  counters := bumpCounter st.counters (some c),
                  copies := st.copies ++ [fireCopy rs S peer D n sig done] } := by
  have e1 : sendArgs st (sendHalf peer rs S n seq done c) =
      Except.ok (PgasState.mk
        (st.table ++ [(peer, SendInfo.mk ⟨rs, some S⟩ ⟨peer, none⟩ n seq none (some done) (some c))])
        st.counters st.copies) := by
    unfold sendArgs sendHalf
    dsimp only
    exact send_insert h
  rw [runCalls_cons, e1]
  dsimp only
  rw [runCalls_cons]
  have e2 : sendArgs (PgasState.mk
        (st.table ++ [(peer, SendInfo.mk ⟨rs, some S⟩ ⟨peer, none⟩ n seq none (some done) (some c))])
        st.counters st.copies) (recvHalf peer rx D n seq sig) =
      Except.ok { table := st.table,
                  counters := bumpCounter st.counters (some c),
                  copies := st.copies ++ [fireCopy rs S peer D n sig done] } := by
    unfold sendArgs recvHalf
    dsimp only
    rw [send_split st.table []
      (SendInfo.mk ⟨rs, some S⟩ ⟨peer, none⟩ n seq none (some done) (some c)) rfl h rfl]
    simp [completeInfo, SendInfo.check, fireCopy]
  rw [e2]
  rfl

/-- C1: for every pair of complementary announcements with a fixed
(peer, sequenceTag) and equal byteLength, regardless of which half arrives
first, exactly one copy is issued, the completion counter supplied with the
source half increases by exactly one, and after the firing call returns the
table contains no entry for that (peer, sequenceTag) key. -/
theorem C1_at_most_once_firing (st : PgasState) (peer rs rx S D n sig done c : Nat) (seq : Int)
    (h : hasKey st.table peer seq = false) :
    ∃ stF : PgasState,
      runCalls st [recvHalf peer rx D n seq sig, sendHalf peer rs S n seq done c] =
        Except.ok stF ∧
      runCalls st [sendHalf peer rs S n seq done c, recvHalf peer rx D n seq sig] =
        Except.ok stF ∧
      stF.copies = st.copies ++ [fireCopy rs S peer D n sig done] ∧
      getCounter stF.counters c = getCounter st.counters c + 1 ∧
      hasKey stF.table peer seq = false := by
  refine ⟨{ table := st.table, counters := bumpCounter st.counters (some c),
            copies := st.copies ++ [fireCopy rs S peer D n sig done] },
          runCalls_recv_send h, runCalls_send_recv h, rfl, ?_, h⟩
  exact getCounter_bumpCounter_self st.counters c

/-- C1 witness: peer 3, tag 7, 1024 bytes, source buffer 11, destination
buffer 12, counter cell 5, starting from the empty state. -/
theorem C1_at_most_once_firing_witness :
    ∃ stF : PgasState,
      runCalls (PgasState.mk [] [] []) [recvHalf 3 0 12 1024 7 20, sendHalf 3 1 11 1024 7 21 5] =
        Except.ok stF ∧
      runCalls (PgasState.mk [] [] []) [sendHalf 3 1 11 1024 7 21 5, recvHalf 3 0 12 1024 7 20] =
        Except.ok stF ∧
      stF.copies = [] ++ [fireCopy 1 11 3 12 1024 20 21] ∧
      getCounter stF.counters 5 = getCounter ([] : List (Nat × Nat)) 5 + 1 ∧
      hasKey stF.table 3 7 = false :=
  C1_at_most_once_firing (PgasState.mk [] [] []) 3 1 0 11 12 1024 20 21 5 7 (by decide)

/-- C2: announcing the destination half then the source half yields exactly
the same result as the reverse order: the same state, in which the copy
primitive was invoked once with the same source address, destination address,
byteLength, receiver-side signal event and sender-side done event, and the
same counter was incremented by one. -/
theorem C2_order_independence (st : PgasState) (peer rs rx S D n sig done c : Nat) (seq : Int)
    (h : hasKey st.table peer seq = false) :
    runCalls st [recvHalf peer rx D n seq sig, sendHalf peer rs S n seq done c] =
      runCalls st [sendHalf peer rs S n seq done c, recvHalf peer rx D n seq sig] ∧
    runCalls st [recvHalf peer rx D n seq sig, sendHalf peer rs S n seq done c] =
      Except.ok { table := st.table, counters := bumpCounter st.counters (some c),
                  copies := st.copies ++ [fireCopy rs S peer D n sig done] } := by
  rw [runCalls_recv_send h, runCalls_send_recv h]
  exact ⟨rfl, rfl⟩

/-- C2 witness: the two orders agree at peer 3, tag 7, 1024 bytes. -/
theorem C2_order_independence_witness :
    runCalls (PgasState.mk [] [] []) [recvHalf 3 0 12 1024 7 20, sendHalf 3 1 11 1024 7 21 5] =
      runCalls (PgasState.mk [] [] []) [sendHalf 3 1 11 1024 7 21 5, recvHalf 3 0 12 1024 7 20] ∧
    runCalls (PgasState.mk [] [] []) [recvHalf 3 0 12 1024 7 20, sendHalf 3 1 11 1024 7 21 5] =
      Except.ok { table := ([] : List (Nat × SendInfo)),
                  counters := bumpCounter [] (some 5),
                  copies := [] ++ [fireCopy 1 11 3 12 1024 20 21] } :=
  C2_order_independence (PgasState.mk [] [] []) 3 1 0 11 12 1024 20 21 5 7 (by decide)

/-- C7: invariant I3 holds after any sequence of successful `BLPgas::Send`
calls: starting from a table with at most one descriptor per (destination
rank, SeqNum) key, every intermediate and final table again has at most one
descriptor per key, because a call either completes-and-erases the found
entry or inserts under a key it proved absent. -/
theorem C7_at_most_one_per_key (st : PgasState) (cs : List SendArgs) (st' : PgasState)
    (hU : UniqTable st.table) (hrun : runCalls st cs = Except.ok st') :
    UniqTable st'.table := by
  induction cs generalizing st with
  | nil =>
    rw [runCalls_nil] at hrun
    injection hrun with hrun
    subst hrun
    exact hU
  | cons a rest ih =>
    rw [runCalls_cons] at hrun
    cases hsend : sendArgs st a with
    | error e => rw [hsend] at hrun; cases hrun
    | ok st1 =>
      rw [hsend] at hrun
      have hU1 : UniqTable st1.table := UniqTable_send hU hsend
      exact ih st1 hU1 hrun

/-- C7 witness: one insertion starting from the empty table keeps the table
duplicate-free. -/
theorem C7_at_most_one_per_key_witness :
    UniqTable [(3, recvInfo 3 0 12 1024 7 20)] :=
  C7_at_most_one_per_key (PgasState.mk [] [] []) [recvHalf 3 0 12 1024 7 20]
    (PgasState.mk [(3, recvInfo 3 0 12 1024 7 20)] [] [])
    (by intro key s; simp [UniqTable, countKey]) (by decide)

/-- C8: a call that finds no entry with matching destination rank and SeqNum
inserts a new half-known descriptor carrying exactly the supplied fields and
has no other effect: the counters and the copy log are unchanged, the
previous entries are preserved in place, and the trace is a single
insertion. -/
theorem C8_no_match_frame (st : PgasState) (src dst : GlobalPtr) (nbytes : Nat) (SeqNum : Int)
    (sig done ctr : Option Nat)
    (h : hasKey st.table dst.rank SeqNum = false) :
    send st src dst nbytes SeqNum sig done ctr =
      Except.ok (PgasState.mk
        (st.table ++ [(dst.rank, SendInfo.mk src dst nbytes SeqNum sig done ctr)])
        st.counters st.copies) ∧
    sendTrace st src dst nbytes SeqNum sig done ctr =
      Except.ok [Event.inserted dst.rank SeqNum] :=
  ⟨send_insert h, sendTrace_insert h⟩

/-- C8 witness: inserting a receive half at peer 3, tag 7 into a state whose
table already holds an unrelated entry for tag 9. -/
theorem C8_no_match_frame_witness :
    send (PgasState.mk [(3, recvInfo 3 0 15 512 9 27)] [(5, 4)] [])
        { rank := 0, addr := none } { rank := 3, addr := some 12 } 1024 7 (some 20) none none =
      Except.ok (PgasState.mk
        ([(3, recvInfo 3 0 15 512 9 27)] ++
          [(3, SendInfo.mk { rank := 0, addr := none } { rank := 3, addr := some 12 }
                 1024 7 (some 20) none none)])
        [(5, 4)] []) ∧
    sendTrace (PgasState.mk [(3, recvInfo 3 0 15 512 9 27)] [(5, 4)] [])
        { rank := 0, addr := none } { rank := 3, addr := some 12 } 1024 7 (some 20) none none =
      Except.ok [Event.inserted 3 7] :=
  C8_no_match_frame (PgasState.mk [(3, recvInfo 3 0 15 512 9 27)] [(5, 4)] [])
    { rank := 0, addr := none } { rank := 3, addr := some 12 } 1024 7 (some 20) none none
    (by decide)

/-- C4: announcing two source halves for the same (peer, sequenceTag) before
any destination half arrives is fatal: the first call registers its
descriptor, and the duplicate arrival dies on the pre-copy descriptor check
(its destination address is still NULL), so no copy is ever issued for it. -/
theorem C4_duplicate_source (st : PgasState) (peer rs1 S1 rs2 S2 n done1 c1 done2 c2 : Nat)
    (seq : Int) (h : hasKey st.table peer seq = false) :
    sendArgs st (sendHalf peer rs1 S1 n seq done1 c1) =
      Except.ok (PgasState.mk (st.table ++ [(peer, sendInfo peer rs1 S1 n seq done1 c1)])
        st.counters st.copies) ∧
    runCalls st [sendHalf peer rs1 S1 n seq done1 c1, sendHalf peer rs2 S2 n seq done2 c2] =
      Except.error PgasError.checkFailed ∧
    sendTrace (PgasState.mk (st.table ++ [(peer, sendInfo peer rs1 S1 n seq done1 c1)])
        st.counters st.copies)
      { rank := rs2, addr := some S2 } { rank := peer, addr := none } n seq
      none (some done2) (some c2) =
      Except.error PgasError.checkFailed := by
  have edup : sendArgs (PgasState.mk (st.table ++ [(peer, sendInfo peer rs1 S1 n seq done1 c1)])
        st.counters st.copies) (sendHalf peer rs2 S2 n seq done2 c2) =
      Except.error PgasError.checkFailed := by
    unfold sendArgs sendHalf
    dsimp only
    rw [send_split st.table [] (sendInfo peer rs1 S1 n seq done1 c1)
      rfl h (show (sendInfo peer rs1 S1 n seq done1 c1).SeqNum = seq from rfl)]
    simp [completeInfo, sendInfo, SendInfo.check]
  refine ⟨sendArgs_sendHalf_insert h, ?_, ?_⟩
  · rw [runCalls_cons, sendArgs_sendHalf_insert h]
    dsimp only
    rw [runCalls_cons, edup]
  · rw [sendTrace_split st.table [] (sendInfo peer rs1 S1 n seq done1 c1)
      rfl h (show (sendInfo peer rs1 S1 n seq done1 c1).SeqNum = seq from rfl)]
    simp [completeInfo, sendInfo, SendInfo.check]

/-- C4 witness: two source halves at peer 3, tag 7 abort with the descriptor
check failing before any copy. -/
theorem C4_duplicate_source_witness :
    sendArgs (PgasState.mk [] [] []) (sendHalf 3 1 11 1024 7 21 5) =
      Except.ok (PgasState.mk ([] ++ [(3, sendInfo 3 1 11 1024 7 21 5)]) [] []) ∧
    runCalls (PgasState.mk [] [] []) [sendHalf 3 1 11 1024 7 21 5, sendHalf 3 2 13 1024 7 22 6] =
      Except.error PgasError.checkFailed ∧
    sendTrace (PgasState.mk ([] ++ [(3, sendInfo 3 1 11 1024 7 21 5)]) [] [])
      { rank := 2, addr := some 13 } { rank := 3, addr := none } 1024 7
      none (some 22) (some 6) =
      Except.error PgasError.checkFailed :=
  C4_duplicate_source (PgasState.mk [] [] []) 3 1 11 2 13 1024 21 5 22 6 7 (by decide)

/-- C5: on a match whose stored descriptor has a NULL source address, the
call supplies the source half: the completed descriptor takes its source
address, done event and counter pointer from the incoming call (keeping the
stored signal event, size and destination address), and the pre-copy check
verifies the stored destination address is non-NULL — if it is NULL the call
aborts with no copy, and if it is non-NULL the copy fires with exactly those
fields. -/
theorem C5_source_fill (st : PgasState) (src dst : GlobalPtr) (nbytes : Nat) (SeqNum : Int)
    (sig done ctr : Option Nat) (pre post : List (Nat × SendInfo)) (si : SendInfo) (s0 : Nat)
    (hsplit : st.table = pre ++ (dst.rank, si) :: post)
    (hpre : hasKey pre dst.rank SeqNum = false)
    (hseq : si.SeqNum = SeqNum)
    (hn : si.nbytes = nbytes)
    (hsrc0 : si.src_ptr.addr = none)
    (hsrc : src.addr = some s0) :
    (si.dst_ptr.addr = none →
       send st src dst nbytes SeqNum sig done ctr = Except.error PgasError.checkFailed ∧
       sendTrace st src dst nbytes SeqNum sig done ctr = Except.error PgasError.checkFailed) ∧
    (∀ d, si.dst_ptr.addr = some d →
       send st src dst nbytes SeqNum sig done ctr =
         Except.ok (PgasState.mk (pre ++ post) (bumpCounter st.counters ctr)
           (st.copies ++ [CopyCall.mk src si.dst_ptr si.nbytes si.signal_event done]))) := by
  constructor
  · intro hd0
    rw [send_split pre post si hsplit hpre hseq, sendTrace_split pre post si hsplit hpre hseq]
    constructor <;> simp [hn, completeInfo, hsrc0, SendInfo.check, hsrc, hd0]
  · intro d hd
    rw [send_split pre post si hsplit hpre hseq]
    simp [hn, completeInfo, hsrc0, SendInfo.check, hsrc, hd]

/-- C5 witness: a stored receive half at peer 3, tag 7 is completed by the
incoming source half; its destination address 12 is non-NULL, so the copy
fires with source 11, destination 12, the stored signal event and the
incoming done event. -/
theorem C5_source_fill_witness :
    ((recvInfo 3 0 12 1024 7 20).dst_ptr.addr = none →
       send (PgasState.mk [(3, recvInfo 3 0 12 1024 7 20)] [] [])
           { rank := 1, addr := some 11 } { rank := 3, addr := none } 1024 7
           none (some 21) (some 5) = Except.error PgasError.checkFailed ∧
       sendTrace (PgasState.mk [(3, recvInfo 3 0 12 1024 7 20)] [] [])
           { rank := 1, addr := some 11 } { rank := 3, addr := none } 1024 7
           none (some 21) (some 5) = Except.error PgasError.checkFailed) ∧
    (∀ d, (recvInfo 3 0 12 1024 7 20).dst_ptr.addr = some d →
       send (PgasState.mk [(3, recvInfo 3 0 12 1024 7 20)] [] [])
           { rank := 1, addr := some 11 } { rank := 3, addr := none } 1024 7
           none (some 21) (some 5) =
         Except.ok (PgasState.mk ([] ++ []) (bumpCounter [] (some 5))
           ([] ++ [CopyCall.mk { rank := 1, addr := some 11 }
                     (recvInfo 3 0 12 1024 7 20).dst_ptr
                     (recvInfo 3 0 12 1024 7 20).nbytes
                     (recvInfo 3 0 12 1024 7 20).signal_event (some 21)]))) :=
  C5_source_fill (PgasState.mk [(3, recvInfo 3 0 12 1024 7 20)] [] [])
    { rank := 1, addr := some 11 } { rank := 3, addr := none } 1024 7
    none (some 21) (some 5) [] [] (recvInfo 3 0 12 1024 7 20) 11
    (by decide) (by decide) (by decide) (by decide) (by decide) (by decide)

/-- C6: when the matched halves disagree on byteLength, the size assertion
(BLPgas.cpp line 79) aborts the call with a size mismatch before any copy is
issued — the trace is the failing assert alone, so a mismatch never results
in a fired transfer. -/
theorem C6_size_mismatch (st : PgasState) (src dst : GlobalPtr) (nbytes : Nat) (SeqNum : Int)
    (sig done ctr : Option Nat) (pre post : List (Nat × SendInfo)) (si : SendInfo)
    (hsplit : st.table = pre ++ (dst.rank, si) :: post)
    (hpre : hasKey pre dst.rank SeqNum = false)
    (hseq : si.SeqNum = SeqNum)
    (hn : si.nbytes ≠ nbytes) :
    send st src dst nbytes SeqNum sig done ctr = Except.error PgasError.sizeMismatch ∧
    sendTrace st src dst nbytes SeqNum sig done ctr = Except.error PgasError.sizeMismatch := by
  rw [send_split pre post si hsplit hpre hseq, sendTrace_split pre post si hsplit hpre hseq]
  constructor <;> rw [if_pos (Ne.symm hn)]

/-- C6 witness: destination half registered with 64 bytes, source half
arriving with 128 bytes for the same peer 3, tag 7: fatal size mismatch, no
copy. -/
theorem C6_size_mismatch_witness :
    send (PgasState.mk [(3, recvInfo 3 0 12 64 7 20)] [] [])
        { rank := 1, addr := some 11 } { rank := 3, addr := none } 128 7
        none (some 21) (some 5) = Except.error PgasError.sizeMismatch ∧
    sendTrace (PgasState.mk [(3, recvInfo 3 0 12 64 7 20)] [] [])
        { rank := 1, addr := some 11 } { rank := 3, addr := none } 128 7
        none (some 21) (some 5) = Except.error PgasError.sizeMismatch :=
  C6_size_mismatch (PgasState.mk [(3, recvInfo 3 0 12 64 7 20)] [] [])
    { rank := 1, addr := some 11 } { rank := 3, addr := none } 128 7
    none (some 21) (some 5) [] [] (recvInfo 3 0 12 64 7 20)
    (by decide) (by decide) (by decide) (by decide)

/-- C3 (counterexample): at a concrete fired match — destination half for
peer 3, tag 7 already registered, source half arriving — the call's trace is
copy invocation, counter increment, table erase, in that order: a copy is
issued, yet the erase does not precede the copy invocation, refuting the
claim that the removal of the descriptor happens before the asynchronous copy
primitive is invoked. -/
theorem C3_erase_before_copy_counterexample :
    sendTrace (PgasState.mk [(3, recvInfo 3 0 12 1024 7 20)] [] [])
        { rank := 1, addr := some 11 } { rank := 3, addr := none } 1024 7
        none (some 21) (some 5) =
      Except.ok [Event.copyIssued (CopyCall.mk { rank := 1, addr := some 11 }
                   { rank := 3, addr := some 12 } 1024 (some 20) (some 21)),
                 Event.counterBumped (some 5), Event.erased 3 7] ∧
    List.any [Event.copyIssued (CopyCall.mk { rank := 1, addr := some 11 }
                { rank := 3, addr := some 12 } 1024 (some 20) (some 21)),
              Event.counterBumped (some 5), Event.erased 3 7] isCopy = true ∧
    erasePrecedesCopy [Event.copyIssued (CopyCall.mk { rank := 1, addr := some 11 }
                         { rank := 3, addr := some 12 } 1024 (some 20) (some 21)),
                       Event.counterBumped (some 5), Event.erased 3 7] = false := by
  decide

/-- C3 (amended): whenever a `BLPgas::Send` call issues a copy, the execution
order inside the call is copy invocation, counter increment, table erase: the
erase follows the copy invocation — never precedes it — but it does occur
within the same call, before `BLPgas::Send` returns. -/
theorem C3_copy_then_erase (st : PgasState) (src dst : GlobalPtr) (nbytes : Nat)
    (SeqNum : Int) (sig done ctr : Option Nat) (tr : List Event)
    (h : sendTrace st src dst nbytes SeqNum sig done ctr = Except.ok tr)
    (hc : tr.any isCopy = true) :
    copyPrecedesErase tr = true ∧ erasePrecedesCopy tr = false ∧ tr.any isErase = true := by
  unfold sendTrace at h
  cases hscan : scanSend src dst nbytes SeqNum sig done ctr st.table <;> rw [hscan] at h
  case noMatch =>
    injection h with h
    subst h
    simp [isCopy] at hc
  case fired si rest =>
    injection h with h
    subst h
    refine ⟨?_, ?_, ?_⟩
    · simp [copyPrecedesErase, isCopy, isErase]
    · simp [erasePrecedesCopy, isCopy, isErase]
    · simp [isErase]
  case fatal err => cases h

/-- C3 witness: the amended ordering at the concrete fired match of the
counterexample. -/
theorem C3_copy_then_erase_witness :
    copyPrecedesErase [Event.copyIssued (CopyCall.mk { rank := 1, addr := some 11 }
                         { rank := 3, addr := some 12 } 1024 (some 20) (some 21)),
                       Event.counterBumped (some 5), Event.erased 3 7] = true ∧
    erasePrecedesCopy [Event.copyIssued (CopyCall.mk { rank := 1, addr := some 11 }
                         { rank := 3, addr := some 12 } 1024 (some 20) (some 21)),
                       Event.counterBumped (some 5), Event.erased 3 7] = false ∧
    List.any [Event.copyIssued (CopyCall.mk { rank := 1, addr := some 11 }
                { rank := 3, addr := some 12 } 1024 (some 20) (some 21)),
              Event.counterBumped (some 5), Event.erased 3 7] isErase = true :=
  C3_copy_then_erase (PgasState.mk [(3, recvInfo 3 0 12 1024 7 20)] [] [])
    { rank := 1, addr := some 11 } { rank := 3, addr := none } 1024 7
    none (some 21) (some 5)
    [Event.copyIssued (CopyCall.mk { rank := 1, addr := some 11 }
       { rank := 3, addr := some 12 } 1024 (some 20) (some 21)),
     Event.counterBumped (some 5), Event.erased 3 7]
    (by decide) (by decide)

/-- C9: tags isolate.  First, generically: a successful call with one
sequence tag never changes the entry count of any other tag, so a half
carrying tag T1 can never match (complete, erase) a stored half carrying tag
T2.  Second, the E2E interleaving dest-T1, dest-T2, src-T2, src-T1 to one
peer fires the two transfers independently, each with its own addresses and
byteLength, increments the two counters once each, and leaves the table as
it started — with no entry for either key. -/
theorem C9_tag_isolation (st : PgasState)
    (p rs1 rx1 rs2 rx2 S1 D1 S2 D2 n1 n2 sig1 done1 sig2 done2 c1 c2 : Nat) (T1 T2 : Int)
    (hT : T1 ≠ T2) (hc : c1 ≠ c2)
    (h1 : hasKey st.table p T1 = false) (h2 : hasKey st.table p T2 = false) :
    (∀ (st1 st2 : PgasState) (a : SendArgs) (k : Nat) (s : Int), s ≠ a.SeqNum →
        sendArgs st1 a = Except.ok st2 → countKey st2.table k s = countKey st1.table k s) ∧
    (∃ stF : PgasState,
      runCalls st [recvHalf p rx1 D1 n1 T1 sig1, recvHalf p rx2 D2 n2 T2 sig2,
                   sendHalf p rs2 S2 n2 T2 done2 c2, sendHalf p rs1 S1 n1 T1 done1 c1] =
        Except.ok stF ∧
      stF.table = st.table ∧
      stF.copies = st.copies ++ [fireCopy rs2 S2 p D2 n2 sig2 done2,
                                 fireCopy rs1 S1 p D1 n1 sig1 done1] ∧
      getCounter stF.counters c1 = getCounter st.counters c1 + 1 ∧
      getCounter stF.counters c2 = getCounter st.counters c2 + 1) := by
  constructor
  · intro st1 st2 a k s hs hok
    exact countKey_send_ok hok (Or.inr hs)
  · have hkey2 : hasKey (st.table ++ [(p, recvInfo p rx1 D1 n1 T1 sig1)]) p T2 = false := by
      rw [hasKey_append, h2, Bool.false_or]
      simp [hasKey, matchesEntry, recvInfo]
      exact fun hcontra => hT hcontra.symm
    refine ⟨PgasState.mk st.table
        (bumpCounter (bumpCounter st.counters (some c2)) (some c1))
        ((st.copies ++ [fireCopy rs2 S2 p D2 n2 sig2 done2]) ++
          [fireCopy rs1 S1 p D1 n1 sig1 done1]),
      ?_, rfl, by simp, ?_, ?_⟩
    · rw [runCalls_cons, sendArgs_recvHalf_insert h1]
      dsimp only
      rw [runCalls_cons, sendArgs_recvHalf_insert hkey2]
      dsimp only
      rw [runCalls_cons,
        sendArgs_sendHalf_fires (st.table ++ [(p, recvInfo p rx1 D1 n1 T1 sig1)])
          [] rfl hkey2]
      dsimp only
      rw [List.append_nil]
      rw [runCalls_cons, sendArgs_sendHalf_fires st.table [] rfl h1]
      dsimp only
      rw [runCalls_nil, List.append_nil]
    · rw [getCounter_bumpCounter_self, getCounter_bumpCounter_ne _ hc]
    · rw [getCounter_bumpCounter_ne _ (Ne.symm hc), getCounter_bumpCounter_self]

/-- C9 witness: tags 7 and 8 to peer 3 interleaved dest-7, dest-8, src-8,
src-7 (the E2E scenario C), with distinct buffers, sizes, events and
counters, starting from the empty state. -/
theorem C9_tag_isolation_witness :
    (∀ (st1 st2 : PgasState) (a : SendArgs) (k : Nat) (s : Int), s ≠ a.SeqNum →
        sendArgs st1 a = Except.ok st2 → countKey st2.table k s = countKey st1.table k s) ∧
    (∃ stF : PgasState,
      runCalls (PgasState.mk [] [] []) [recvHalf 3 0 12 1024 7 20, recvHalf 3 0 14 2048 8 22,
                   sendHalf 3 2 13 2048 8 23 6, sendHalf 3 1 11 1024 7 21 5] =
        Except.ok stF ∧
      stF.table = ([] : List (Nat × SendInfo)) ∧
      stF.copies = [] ++ [fireCopy 2 13 3 14 2048 22 23, fireCopy 1 11 3 12 1024 20 21] ∧
      getCounter stF.counters 5 = getCounter ([] : List (Nat × Nat)) 5 + 1 ∧
      getCounter stF.counters 6 = getCounter ([] : List (Nat × Nat)) 6 + 1) :=
  C9_tag_isolation (PgasState.mk [] [] []) 3 1 0 2 0 11 12 13 14 1024 2048 20 21 22 23 5 6 7 8
    (by decide) (by decide) (by decide) (by decide)

/-- C10: the multimap key is always the destination rank `dst.where()`.
A no-match call stores its descriptor under the incoming call's destination
rank; a call can fire a copy only if an entry with that same destination rank
and SeqNum was already stored; and entries under every other destination rank
are left untouched — the source rank plays no role in keying. -/
theorem C10_key_is_dst_rank (st st' : PgasState) (src dst : GlobalPtr) (nbytes : Nat)
    (SeqNum : Int) (sig done ctr : Option Nat)
    (hok : send st src dst nbytes SeqNum sig done ctr = Except.ok st') :
    (hasKey st.table dst.rank SeqNum = false →
       st'.table = st.table ++
         [(dst.rank, SendInfo.mk src dst nbytes SeqNum sig done ctr)]) ∧
    (st'.copies ≠ st.copies →
       ∃ si, (dst.rank, si) ∈ st.table ∧ si.SeqNum = SeqNum) ∧
    (∀ key s, key ≠ dst.rank → countKey st'.table key s = countKey st.table key s) := by
  refine ⟨?_, ?_, ?_⟩
  · intro h
    rw [send_insert h] at hok
    injection hok with hok
    rw [← hok]
  · intro hco
    unfold send at hok
    cases hscan : scanSend src dst nbytes SeqNum sig done ctr st.table <;> rw [hscan] at hok
    case noMatch =>
      injection hok with hok
      exact absurd (congrArg PgasState.copies hok.symm) (by intro hx; exact hco hx)
    case fired si rest =>
      obtain ⟨pre, e, post, ht, -, hm, -, -, -⟩ := scanSend_fired_split hscan
      obtain ⟨he1, he2⟩ := (matchesEntry_iff_parts dst.rank SeqNum e).mp hm
      refine ⟨e.2, ?_, he2.symm⟩
      rw [← he1, ht]
      exact List.mem_append_right _ (List.mem_cons_self _ _)
    case fatal err => cases hok
  · intro key s hk
    exact countKey_send_ok hok (Or.inl hk)

/-- C10 witness: a fired match at peer 3, tag 7 — the copy log grew, and
indeed an entry under destination rank 3 with tag 7 was present; entries
under every other rank kept their counts. -/
theorem C10_key_is_dst_rank_witness :
    (hasKey [(3, recvInfo 3 0 12 1024 7 20)] 3 7 = false →
       (PgasState.mk ([] : List (Nat × SendInfo)) [(5, 1)]
           [CopyCall.mk { rank := 1, addr := some 11 } { rank := 3, addr := some 12 }
              1024 (some 20) (some 21)]).table =
         [(3, recvInfo 3 0 12 1024 7 20)] ++
           [(3, SendInfo.mk { rank := 1, addr := some 11 } { rank := 3, addr := none }
                  1024 7 none (some 21) (some 5))]) ∧
    ((PgasState.mk ([] : List (Nat × SendInfo)) [(5, 1)]
        [CopyCall.mk { rank := 1, addr := some 11 } { rank := 3, addr := some 12 }
           1024 (some 20) (some 21)]).copies ≠
       (PgasState.mk [(3, recvInfo 3 0 12 1024 7 20)] [] []).copies →
       ∃ si, (3, si) ∈ [(3, recvInfo 3 0 12 1024 7 20)] ∧ si.SeqNum = 7) ∧
    (∀ key s, key ≠ 3 →
       countKey ([] : List (Nat × SendInfo)) key s =
         countKey [(3, recvInfo 3 0 12 1024 7 20)] key s) :=
  C10_key_is_dst_rank (PgasState.mk [(3, recvInfo 3 0 12 1024 7 20)] [] [])
    (PgasState.mk [] [(5, 1)]
      [CopyCall.mk { rank := 1, addr := some 11 } { rank := 3, addr := some 12 }
         1024 (some 20) (some 21)])
    { rank := 1, addr := some 11 } { rank := 3, addr := none } 1024 7
    none (some 21) (some 5) (by decide)

end BLPgas
